import Mathlib

/-!
Verification of the Cancel Compass backend (cashback-server).

The JavaScript sources are shallowly embedded here.  JS strings are
modelled as lists of characters, JS numbers as exact rationals (all
numbers reaching the helpers under scrutiny come from parsed JSON and are
finite; double rounding and overflow-to-infinity are outside the model),
and the external collaborators (OpenAI completion, Google token
verification, HTTP liveness probes) as explicit oracles passed to the
handler functions.  Each definition mirrors one function or route handler
of the source, keeping its name where Lean allows.
-/

namespace CC

set_option maxRecDepth 100000

/-- The character 0x7b, the opening curly brace scanned for by parseModelJSON. -/
def lbrace : Char := '\x7b'

/-- The character 0x7d, the closing curly brace scanned for by parseModelJSON. -/
def rbrace : Char := '\x7d'

/-- JS whitespace recognised by String.prototype.trim (WhiteSpace and
LineTerminator code points). -/
def isJsSpace (c : Char) : Bool :=
  c == ' ' || c == '\t' || c == '\n' || c == '\r' || c == '\x0b' || c == '\x0c' ||
  c.toNat == 0xa0 || c.toNat == 0xfeff || c.toNat == 0x1680 ||
  (0x2000 ≤ c.toNat && c.toNat ≤ 0x200a) ||
  c.toNat == 0x2028 || c.toNat == 0x2029 || c.toNat == 0x202f ||
  c.toNat == 0x205f || c.toNat == 0x3000

/-- Embedding of String.prototype.trim. -/
def jsTrim (s : List Char) : List Char :=
  ((s.dropWhile isJsSpace).reverse.dropWhile isJsSpace).reverse

/-- Index of the first occurrence of a character, as in String.prototype.indexOf
(-1 is modelled by none). -/
def firstIdx (c : Char) : List Char → Option Nat
  | [] => none
  | x :: xs => if x = c then some 0 else (firstIdx c xs).map (· + 1)

/-- Index of the last occurrence of a character, as in String.prototype.lastIndexOf
(-1 is modelled by none). -/
def lastIdx (c : Char) (cs : List Char) : Option Nat :=
  (firstIdx c cs.reverse).map (fun i => cs.length - 1 - i)

/-- Embedding of String.prototype.slice with non-negative bounds. -/
def sliceJS (cs : List Char) (start stop : Nat) : List Char :=
  (cs.take stop).drop start

/-- safeTrim from src/server.mjs and src/unnamed/part_000: strings longer than
n characters are cut to n characters plus a one-character ellipsis. -/
def safeTrimJS (s : List Char) (n : Nat) : List Char :=
  if n < s.length then s.take n ++ ['…'] else s

/-- safeTrim from src/unnamed/part_001: trims, then cuts to max characters
with no ellipsis marker. -/
def safeTrimP1 (s : List Char) (max : Nat) : List Char :=
  let t := jsTrim s
  if max < t.length then t.take max else t

/-- JSON values as produced by JSON.parse, with numbers as exact rationals. -/
inductive Json where
  | null
  | bool (b : Bool)
  | num (q : ℚ)
  | str (s : List Char)
  | arr (elems : List Json)
  | obj (fields : List (List Char × Json))

/-- JS property read on a parsed JSON value: on objects the last binding of
the key wins (JSON.parse keeps the final duplicate); none models undefined. -/
def getField (j : Json) (k : List Char) : Option Json :=
  match j with
  | Json.obj kvs => kvs.foldl (fun acc p => if p.1 = k then some p.2 else acc) none
  | _ => none

/-- JSON document whitespace. -/
def isJsonWs (c : Char) : Bool :=
  c == ' ' || c == '\t' || c == '\n' || c == '\r'

/-- Skip JSON whitespace. -/
def skipWs (cs : List Char) : List Char := cs.dropWhile isJsonWs

/-- Numeric value of a run of decimal digits. -/
def digitsVal (ds : List Char) : Nat :=
  ds.foldl (fun n c => n * 10 + (c.toNat - 48)) 0

/-- Value of a hexadecimal digit. -/
def hexVal (c : Char) : Option Nat :=
  if c.isDigit then some (c.toNat - 48)
  else if 'a' ≤ c ∧ c ≤ 'f' then some (c.toNat - 87)
  else if 'A' ≤ c ∧ c ≤ 'F' then some (c.toNat - 55)
  else none

/-- Strict JSON string-literal body: consumes up to the closing quote,
processing escapes; rejects raw control characters.  Fuelled for easy
termination; callers pass the input length as fuel. -/
def parseStrLit : Nat → List Char → List Char → Option (List Char × List Char)
  | 0, _, _ => none
  | _ + 1, [], _ => none
  | fuel + 1, c :: rest, acc =>
    if c = '\"' then some (acc.reverse, rest)
    else if c = '\\' then
      match rest with
      | [] => none
      | e :: r =>
        if e = '\"' then parseStrLit fuel r ('\"' :: acc)
        else if e = '\\' then parseStrLit fuel r ('\\' :: acc)
        else if e = '/' then parseStrLit fuel r ('/' :: acc)
        else if e = 'b' then parseStrLit fuel r ('\x08' :: acc)
        else if e = 'f' then parseStrLit fuel r ('\x0c' :: acc)
        else if e = 'n' then parseStrLit fuel r ('\n' :: acc)
        else if e = 'r' then parseStrLit fuel r ('\r' :: acc)
        else if e = 't' then parseStrLit fuel r ('\t' :: acc)
        else if e = 'u' then
          match r with
          | h1 :: h2 :: h3 :: h4 :: r2 =>
            match hexVal h1, hexVal h2, hexVal h3, hexVal h4 with
            | some a, some b, some c2, some d =>
              parseStrLit fuel r2 (Char.ofNat (((a * 16 + b) * 16 + c2) * 16 + d) :: acc)
            | _, _, _, _ => none
          | _ => none
        else none
    else if c.toNat < 32 then none
    else parseStrLit fuel rest (c :: acc)

/-- Fractional part of a JSON number: a dot followed by at least one digit,
or nothing. -/
def parseFracPart : List Char → Option (List Char × List Char)
  | '.' :: t =>
    let fd := t.takeWhile Char.isDigit
    if fd = [] then none else some (fd, t.dropWhile Char.isDigit)
  | cs => some ([], cs)

/-- Digits of an exponent with an already-determined sign. -/
def readExpDigits (cs : List Char) (neg : Bool) : Option (Int × List Char) :=
  let ds := cs.takeWhile Char.isDigit
  if ds = [] then none
  else some ((if neg then -(digitsVal ds : Int) else (digitsVal ds : Int)), cs.dropWhile Char.isDigit)

/-- Exponent part of a JSON number, or nothing. -/
def parseExpPart : List Char → Option (Int × List Char)
  | [] => some (0, [])
  | c :: t =>
    if c = 'e' ∨ c = 'E' then
      match t with
      | [] => none
      | s :: t2 =>
        if s = '+' then readExpDigits t2 false
        else if s = '-' then readExpDigits t2 true
        else readExpDigits t false
    else some (0, c :: t)

/-- A JSON number literal (strict grammar: no leading zeros, mandatory digit
after the dot), evaluated exactly in ℚ. -/
def parseNumber (cs : List Char) : Option (ℚ × List Char) :=
  let neg := cs.head? = some '-'
  let cs1 := if neg then cs.tail else cs
  let ip := cs1.takeWhile Char.isDigit
  let cs2 := cs1.dropWhile Char.isDigit
  if ip = [] then none
  else if 1 < ip.length ∧ ip.head? = some '0' then none
  else
    match parseFracPart cs2 with
    | none => none
    | some (fd, cs3) =>
      match parseExpPart cs3 with
      | none => none
      | some (e, cs4) =>
        let mag : ℚ := ((digitsVal ip : ℚ) + (digitsVal fd : ℚ) / (10 : ℚ) ^ fd.length) * (10 : ℚ) ^ e
        some ((if neg then -mag else mag), cs4)

/-- Expect a fixed literal continuation (rue, alse, ull). -/
def expectLit (pat : List Char) (cs : List Char) (j : Json) : Option (Json × List Char) :=
  if cs.take pat.length = pat then some (j, cs.drop pat.length) else none

/-- A pending parser obligation: a value, the members of an object after
its opening brace, or the items of an array after its opening bracket. -/
inductive PReq where
  | val (cs : List Char)
  | members (cs : List Char) (acc : List (List Char × Json))
  | items (cs : List Char) (acc : List Json)

/-- Strict recursive-descent JSON parsing, combined into one function
structurally recursive on fuel so that it computes by reduction. -/
def parseStep : Nat → PReq → Option (Json × List Char)
  | 0, _ => none
  | fuel + 1, PReq.val cs =>
    (match skipWs cs with
     | [] => none
     | c :: rest =>
       if c = lbrace then
         match skipWs rest with
         | [] => none
         | d :: rest2 =>
           if d = rbrace then some (Json.obj [], rest2)
           else parseStep fuel (PReq.members (d :: rest2) [])
       else if c = '[' then
         match skipWs rest with
         | [] => none
         | d :: rest2 =>
           if d = ']' then some (Json.arr [], rest2)
           else parseStep fuel (PReq.items (d :: rest2) [])
       else if c = '\"' then
         match parseStrLit (rest.length + 1) rest [] with
         | some (s, r) => some (Json.str s, r)
         | none => none
       else if c = 't' then expectLit "rue".data rest (Json.bool true)
       else if c = 'f' then expectLit "alse".data rest (Json.bool false)
       else if c = 'n' then expectLit "ull".data rest Json.null
       else if c = '-' ∨ c.isDigit then
         match parseNumber (c :: rest) with
         | some (q, r) => some (Json.num q, r)
         | none => none
       else none)
  | fuel + 1, PReq.members cs acc =>
    (match cs with
     | '\"' :: r =>
       match parseStrLit (r.length + 1) r [] with
       | none => none
       | some (k, r2) =>
         match skipWs r2 with
         | ':' :: r3 =>
           match parseStep fuel (PReq.val r3) with
           | none => none
           | some (v, r4) =>
             match skipWs r4 with
             | [] => none
             | d :: r5 =>
               if d = ',' then parseStep fuel (PReq.members (skipWs r5) (acc ++ [(k, v)]))
               else if d = rbrace then some (Json.obj (acc ++ [(k, v)]), r5)
               else none
         | _ => none
     | _ => none)
  | fuel + 1, PReq.items cs acc =>
    (match parseStep fuel (PReq.val cs) with
     | none => none
     | some (v, r) =>
       match skipWs r with
       | ',' :: r2 => parseStep fuel (PReq.items r2 (acc ++ [v]))
       | ']' :: r2 => some (Json.arr (acc ++ [v]), r2)
       | _ => none)

/-- A JSON value with the given fuel. -/
def parseVal (fuel : Nat) (cs : List Char) : Option (Json × List Char) :=
  parseStep fuel (PReq.val cs)

/-- Embedding of JSON.parse: a strict parse of the whole input (only trailing
whitespace allowed), none models a thrown SyntaxError. -/
def jsParse (cs : List Char) : Option Json :=
  match parseVal (cs.length + 1) cs with
  | some (j, rest) => if skipWs rest = [] then some j else none
  | none => none

/-- The error object thrown by parseModelJSON (message, statusCode, raw). -/
structure ApiError where
  message : List Char
  statusCode : Nat
  raw : List Char

/-- Message of the extraction-failure error in parseModelJSON. -/
def noJsonMsg : List Char := "AI did not return JSON".data

/-- Message of the parse-failure error in parseModelJSON. -/
def invalidJsonMsg : List Char := "AI returned invalid JSON".data

/-- parseModelJSON from src/server.mjs (identical in part_000 and part_002):
slice from the first opening brace to the last closing brace, then strict
JSON parse; both failure modes throw a statusCode-502 error carrying a
600-character-bounded preview. -/
def parseModelJSON (rawText : List Char) : Except ApiError Json :=
  match firstIdx lbrace rawText, lastIdx rbrace rawText with
  | some s, some e =>
    if e ≤ s then Except.error ⟨noJsonMsg, 502, safeTrimJS rawText 600⟩
    else
      match jsParse (sliceJS rawText s (e + 1)) with
      | some j => Except.ok j
      | none => Except.error ⟨invalidJsonMsg, 502, safeTrimJS (sliceJS rawText s (e + 1)) 600⟩
  | _, _ => Except.error ⟨noJsonMsg, 502, safeTrimJS rawText 600⟩

/-- All characters other than decimal digits and the dot, i.e. what the
replace(/[^0-9.]/g, "") call in toNumberOrNull removes. -/
def stripNonDigitDot (s : List Char) : List Char :=
  s.filter (fun c => c.isDigit || c == '.')

/-- JS Number() restricted to strings of digits and dots (the only strings
toNumberOrNull ever feeds it): the empty string converts to 0, a decimal
literal to its exact value, anything else (extra dots, a lone dot) to NaN,
modelled as none. -/
def jsNumOfStripped (s : List Char) : Option ℚ :=
  if s = [] then some 0
  else
    let ip := s.takeWhile Char.isDigit
    match s.dropWhile Char.isDigit with
    | [] => some (digitsVal ip : ℚ)
    | '.' :: r2 =>
      let fd := r2.takeWhile Char.isDigit
      if r2.dropWhile Char.isDigit ≠ [] then none
      else if ip = [] ∧ fd = [] then none
      else some ((digitsVal ip : ℚ) + (digitsVal fd : ℚ) / (10 : ℚ) ^ fd.length)
    | _ => none

/-- toNumberOrNull from src/server.mjs: a finite number passes through, a
string is stripped of non-digit/non-dot characters and converted with
Number(), everything else yields null.  The argument is an optional JSON
value (none models undefined). -/
def toNumberOrNull (v : Option Json) : Option ℚ :=
  match v with
  | some (Json.num q) => some q
  | some (Json.str s) => jsNumOfStripped (stripNonDigitDot s)
  | _ => none

/-- clamp01 from src/server.mjs, applied to the result of toNumberOrNull:
null falls back to 0.2, a number is clamped into [0, 1]. -/
def clamp01 (x : Option ℚ) : ℚ :=
  match x with
  | none => 1 / 5
  | some q => max 0 (min 1 q)

/-- normCountryCode from src/server.mjs: falsy input defaults to "US",
otherwise trim, uppercase, slice to the first two characters, with a final
default to "US" when that slice is empty. -/
def normCountryCode (v : Option (List Char)) : List Char :=
  let base := match v with
    | none => "US".data
    | some s => if s.isEmpty then "US".data else s
  let sliced := ((jsTrim base).map Char.toUpper).take 2
  if sliced.isEmpty then "US".data else sliced

/-- Outcome of one call to the external completion collaborator: a thrown
network error, or a response whose output_text is the given string. -/
inductive CompletionOutcome where
  | netFail
  | ok (output : List Char)

/-! ### classify / delete endpoints (src/unnamed/part_001) -/

/-- Verified Google identity claims (only the email claim is consumed). -/
structure GPayload where
  email : Option (List Char)

/-- Truthiness of an optional string, as JS if (!x) sees it. -/
def truthyStrOpt (x : Option (List Char)) : Bool :=
  match x with
  | none => false
  | some s => !s.isEmpty

/-- The or-null coercion payload-email-or-null applied to the verified
claims: a falsy (absent or empty) email becomes null. -/
def orNullStr (x : Option (List Char)) : Option (List Char) :=
  match x with
  | none => none
  | some s => if s.isEmpty then none else some s

/-- JS line terminators, which the dot of a regex never matches. -/
def isLineTerm (c : Char) : Bool :=
  c == '\n' || c == '\r' || c.toNat == 0x2028 || c.toNat == 0x2029

/-- getBearerToken from src/unnamed/part_001: the header must match the
case-insensitive anchored pattern Bearer-space-rest with a non-empty rest
containing no line terminator; the captured rest is the token. -/
def getBearerToken (h : List Char) : Option (List Char) :=
  if (h.take 7).map Char.toLower = "bearer ".data then
    let rest := h.drop 7
    if rest.isEmpty || rest.any isLineTerm then none else some rest
  else none

/-- JS truthiness of an optional JSON value (none models undefined). -/
def jsTruthy (x : Option Json) : Bool :=
  match x with
  | none => false
  | some Json.null => false
  | some (Json.bool b) => b
  | some (Json.num q) => if q = 0 then false else true
  | some (Json.str s) => !s.isEmpty
  | some (Json.arr _) => true
  | some (Json.obj _) => true

/-- Whether an optional JSON value is nullish (undefined or null), i.e.
whether the JS nullish-coalescing operator discards it. -/
def nullishB (x : Option Json) : Bool :=
  match x with
  | none => true
  | some Json.null => true
  | some _ => false

/-- The JS nullish-coalescing operator: x with default d. -/
def jsNullish (x : Option Json) (d : Json) : Json :=
  match x with
  | none => d
  | some Json.null => d
  | some v => v

/-- The normalized classification response of /v1/classifySubscription. -/
structure ClassifyResp where
  is_subscription : Bool
  subscription_name : Json
  merchant_name : Json
  price : Option ℚ
  currency : Json
  billing_period : Json
  billing_email : Json
  is_apple_subscription : Option Bool

/-- The response-shaping step of /v1/classifySubscription applied to the
parsed model object and the verified caller email. -/
def classifyNormalize (obj : Json) (userEmail : Option (List Char)) : ClassifyResp :=
  let fallbackEmail : Json := match userEmail with
    | some e => Json.str e
    | none => Json.null
  { is_subscription := jsTruthy (getField obj "is_subscription".data)
    subscription_name := jsNullish (getField obj "subscription_name".data) Json.null
    merchant_name := jsNullish (getField obj "merchant_name".data) Json.null
    price := match getField obj "price".data with
      | some (Json.num q) => some q
      | _ => none
    currency := jsNullish (getField obj "currency".data) Json.null
    billing_period := jsNullish (getField obj "billing_period".data) Json.null
    billing_email := jsNullish (getField obj "billing_email".data) fallbackEmail
    is_apple_subscription := match getField obj "is_apple_subscription".data with
      | some (Json.bool b) => some b
      | _ => none }

/-- Observable result of one /v1/classifySubscription request: HTTP status,
normalized body when successful, raw preview on extraction failure, and
whether the external completion call was attempted. -/
structure ClassifyStep where
  status : Nat
  resp : Option ClassifyResp
  errorRaw : Option (List Char)
  calledCompletion : Bool

/-- The /v1/classifySubscription handler of src/unnamed/part_001.  The
verification collaborator is an oracle (none models a thrown rejection),
as is the completion collaborator.  A parse failure of the sliced
candidate throws a SyntaxError caught by the outer catch, hence 500. -/
def classifyHandler (authHeader : Option (List Char)) (clientId : Option (List Char))
    (verify : List Char → Option GPayload) (comp : CompletionOutcome) : ClassifyStep :=
  match getBearerToken (authHeader.getD []) with
  | none => ⟨401, none, none, false⟩
  | some tok =>
    if truthyStrOpt clientId = false then ⟨500, none, none, false⟩
    else
      match verify tok with
      | none => ⟨500, none, none, false⟩
      | some payload =>
        match comp with
        | CompletionOutcome.netFail => ⟨500, none, none, true⟩
        | CompletionOutcome.ok text =>
          match firstIdx lbrace text, lastIdx rbrace text with
          | some s, some e =>
            (match jsParse (sliceJS text s (e + 1)) with
             | some obj => ⟨200, some (classifyNormalize obj (orNullStr payload.email)), none, true⟩
             | none => ⟨500, none, none, true⟩)
          | _, _ => ⟨502, none, some (safeTrimP1 text 400), true⟩

/-- Observable result of one /v1/deleteMyData request. -/
structure DeleteStep where
  status : Nat
  okDeleted : Bool

/-- The /v1/deleteMyData handler of src/unnamed/part_001. -/
def deleteMyData (authHeader : Option (List Char)) (clientId : Option (List Char))
    (verify : List Char → Option GPayload) : DeleteStep :=
  match getBearerToken (authHeader.getD []) with
  | none => ⟨401, false⟩
  | some tok =>
    if truthyStrOpt clientId = false then ⟨500, false⟩
    else
      match verify tok with
      | none => ⟨500, false⟩
      | some _ => ⟨200, true⟩

/-! ### price-suggest endpoint and its cache (src/server.mjs) -/

/-- The fixed 24-hour cache TTL in milliseconds. -/
def PRICE_CACHE_TTL_MS : Nat := 24 * 60 * 60 * 1000

/-- The normalized price-suggest payload (verifiedAt is the request time). -/
structure PricePayload where
  subscriptionName : List Char
  countryCode : List Char
  monthly : Option ℚ
  currency : Option (List Char)
  plan : Option (List Char)
  confidence : ℚ
  notes : List Char
  verifiedAt : Nat
  cacheHit : Bool

/-- One priceCache entry. -/
structure CacheEntry where
  expiresAt : Nat
  value : PricePayload

/-- The priceCache Map, as an association list where a set shadows older
bindings (lookups see only the newest one, i.e. Map overwrite semantics). -/
def cacheGet : List (List Char × CacheEntry) → List Char → Option CacheEntry
  | [], _ => none
  | (k, e) :: t, key => if k = key then some e else cacheGet t key

/-- Map.set on the cache. -/
def cacheSet (m : List (List Char × CacheEntry)) (k : List Char) (e : CacheEntry) :
    List (List Char × CacheEntry) :=
  (k, e) :: m

/-- The cache key: lowercased name, a bar, and the normalized country code. -/
def priceKey (name cc : List Char) : List Char :=
  name.map Char.toLower ++ ['|'] ++ cc

/-- Request body of /api/price-suggest. -/
structure PriceReq where
  subscriptionName : Option (List Char)
  countryCode : Option (List Char)

/-- HTTP response of /api/price-suggest. -/
structure PriceOut where
  status : Nat
  payload : Option PricePayload
  error : Option (List Char)
  raw : Option (List Char)

/-- One /api/price-suggest request observed whole: the response, the cache
left behind, and whether the external completion call was made. -/
structure PriceStep where
  out : PriceOut
  cache : List (List Char × CacheEntry)
  calledUpstream : Bool

/-- Field shaping of the price payload from the parsed model object. -/
def pricePayloadOf (obj : Json) (name cc : List Char) (now : Nat) : PricePayload :=
  let monthly := toNumberOrNull (getField obj "monthly".data)
  let currency := match getField obj "currency".data with
    | some (Json.str s) => some ((jsTrim s).map Char.toUpper)
    | _ => none
  let plan := match getField obj "plan".data with
    | some (Json.str s) => some (jsTrim s)
    | _ => none
  { subscriptionName := name
    countryCode := cc
    monthly := match monthly with
      | some m => if 0 ≤ m then some m else none
      | none => none
    currency := match currency with
      | some c => if c.isEmpty then none else some c
      | none => none
    plan := match plan with
      | some p => if p.isEmpty then none else some p
      | none => none
    confidence := clamp01 (toNumberOrNull (getField obj "confidence".data))
    notes := match getField obj "notes".data with
      | some (Json.str s) => safeTrimJS s 240
      | _ => []
    verifiedAt := now
    cacheHit := false }

/-- The cache-miss tail of /api/price-suggest: client check, completion
call, parse, payload construction and cache write. -/
def priceMiss (cache : List (List Char × CacheEntry)) (now : Nat) (name cc key : List Char)
    (apiKey : Bool) (comp : CompletionOutcome) : PriceStep :=
  if apiKey = false then ⟨⟨500, none, some "Server error".data, none⟩, cache, false⟩
  else
    match comp with
    | CompletionOutcome.netFail => ⟨⟨500, none, some "Server error".data, none⟩, cache, true⟩
    | CompletionOutcome.ok out =>
      match parseModelJSON out with
      | Except.error e => ⟨⟨e.statusCode, none, some e.message, some e.raw⟩, cache, true⟩
      | Except.ok obj =>
        let payload := pricePayloadOf obj name cc now
        ⟨⟨200, some payload, none, none⟩,
          cacheSet cache key ⟨now + PRICE_CACHE_TTL_MS, payload⟩, true⟩

/-- The /api/price-suggest handler of src/server.mjs.  A cached entry is
served only while now is strictly before its expiresAt. -/
def priceSuggest (cache : List (List Char × CacheEntry)) (now : Nat) (req : PriceReq)
    (apiKey : Bool) (comp : CompletionOutcome) : PriceStep :=
  let name := jsTrim (req.subscriptionName.getD [])
  let cc := normCountryCode req.countryCode
  if name.isEmpty then
    ⟨⟨400, none, some "subscriptionName is required".data, none⟩, cache, false⟩
  else
    let key := priceKey name cc
    match cacheGet cache key with
    | some entry =>
      if now < entry.expiresAt then
        ⟨⟨200, some { entry.value with cacheHit := true }, none, none⟩, cache, false⟩
      else priceMiss cache now name cc key apiKey comp
    | none => priceMiss cache now name cc key apiKey comp

/-! ### cancel-contact with link liveness (src/unnamed/part_000) -/

/-- Outcome of one HTTP probe: a thrown network error or abort, or a
response with its status and final (post-redirect) URL. -/
inductive ProbeOutcome where
  | failure
  | success (status : Nat) (url : List Char)

/-- The verdict of validateCancelableURL. -/
structure Verdict where
  ok : Bool
  finalUrl : Option (List Char)
  status : Nat

/-- Case-insensitive test that s starts with pat (pat given lowercased). -/
def startsWithCI (pat s : List Char) : Bool :=
  (s.take pat.length).map Char.toLower = pat

/-- The character class of the bare-domain regex in ensureHttps:
letters (either case), digits, dot, dash. -/
def isDomCls (c : Char) : Bool :=
  c.isAlpha || c.isDigit || c == '.' || c == '-'

/-- The anchored bare-domain test of ensureHttps: one or more class
characters, a dot, then at least two letters. -/
def bareDomainTest (t : List Char) : Bool :=
  (List.range t.length).any (fun k =>
    decide (1 ≤ k) && (t.take k).all isDomCls && (t.get? k == some '.') &&
    (match t.get? (k + 1) with | some c => c.isAlpha | none => false) &&
    (match t.get? (k + 2) with | some c => c.isAlpha | none => false))

/-- ensureHttps from src/unnamed/part_000: trims, keeps an explicit
http(s) scheme, prepends https to a bare domain, and otherwise passes the
trimmed string through; empty input gives null. -/
def ensureHttps (s : List Char) : Option (List Char) :=
  let t := jsTrim s
  if t.isEmpty then none
  else if startsWithCI "http://".data t || startsWithCI "https://".data t then some t
  else if bareDomainTest t then some ("https://".data ++ t)
  else some t

/-- The verdict built from a received response: status falls back to 0,
the final URL falls back to the requested URL when empty, and 2xx/3xx
counts as reachable. -/
def verdictOf (st : Nat) (u url : List Char) : Verdict :=
  ⟨decide (200 ≤ st ∧ st < 400), some (if u.isEmpty then url else u), st⟩

/-- The probe response validateCancelableURL ends up classifying: the HEAD
response unless it was 405 or 403, in which case the GET retry. -/
def resolvedProbe (url : List Char) (pHead pGet : List Char → ProbeOutcome) : ProbeOutcome :=
  match pHead url with
  | ProbeOutcome.failure => ProbeOutcome.failure
  | ProbeOutcome.success st u =>
    if st = 405 ∨ st = 403 then pGet url else ProbeOutcome.success st u

/-- validateCancelableURL from src/unnamed/part_000, with the two fetches
as oracles; every thrown error is caught into an unreachable verdict. -/
def validateCancelableURL (candidate : List Char)
    (pHead pGet : List Char → ProbeOutcome) : Verdict :=
  match ensureHttps candidate with
  | none => ⟨false, none, 0⟩
  | some url =>
    match pHead url with
    | ProbeOutcome.failure => ⟨false, none, 0⟩
    | ProbeOutcome.success st u =>
      if st = 405 ∨ st = 403 then
        match pGet url with
        | ProbeOutcome.failure => ⟨false, none, 0⟩
        | ProbeOutcome.success st2 u2 => verdictOf st2 u2 url
      else verdictOf st u url

/-- Hex digit with uppercase letters, as percent-encoding produces. -/
def hexDigitChar (n : Nat) : Char :=
  if n < 10 then Char.ofNat (48 + n) else Char.ofNat (55 + n)

/-- UTF-8 bytes of a character. -/
def utf8Bytes (c : Char) : List Nat :=
  let n := c.toNat
  if n < 0x80 then [n]
  else if n < 0x800 then [0xc0 + n / 64, 0x80 + n % 64]
  else if n < 0x10000 then [0xe0 + n / 4096, 0x80 + (n / 64) % 64, 0x80 + n % 64]
  else [0xf0 + n / 262144, 0x80 + (n / 4096) % 64, 0x80 + (n / 64) % 64, 0x80 + n % 64]

/-- Characters encodeURIComponent leaves unescaped. -/
def isUriUnreserved (c : Char) : Bool :=
  c.isAlpha || c.isDigit ||
  c == '-' || c == '_' || c == '.' || c == '!' || c == '~' || c == '*' ||
  c == '\'' || c == '(' || c == ')'

/-- encodeURIComponent: unreserved characters pass, everything else is
percent-encoded byte by byte in UTF-8. -/
def encodeURIComponent (s : List Char) : List Char :=
  (s.map (fun c =>
    if isUriUnreserved c then [c]
    else ((utf8Bytes c).map (fun b => ['%', hexDigitChar (b / 16), hexDigitChar (b % 16)])).flatten)).flatten

/-- buildSearchURL from src/unnamed/part_000: the deterministic DuckDuckGo
search fallback link for a subscription name. -/
def buildSearchURL (name : List Char) : List Char :=
  "https://duckduckgo.com/?q=".data ++ encodeURIComponent (name ++ " cancel subscription".data)

/-- Request body of /api/cancel-contact. -/
structure CCReq where
  subscriptionName : Option (List Char)
  countryCode : Option (List Char)

/-- Response body of /api/cancel-contact (always sent with its status). -/
structure CCResp where
  status : Nat
  email : Option (List Char)
  cancelURL : Option (List Char)
  confidence : ℚ
  notes : List Char

/-- Extraction of an optional trimmed-and-bounded string field, as the
cancel-contact handler does for email and cancelURL. -/
def ccExtractStr (obj : Json) (k : List Char) (maxLen : Nat) : Option (List Char) :=
  match getField obj k with
  | some (Json.str s) => if (jsTrim s).isEmpty then none else some (safeTrimJS (jsTrim s) maxLen)
  | _ => none

/-- The notes field of the parsed model object, bounded to 240 characters. -/
def ccNotesOf (obj : Json) : List Char :=
  match getField obj "notes".data with
  | some (Json.str s) => safeTrimJS s 240
  | _ => []

/-- The note text appended when the model link failed validation. -/
def deadNoteText (status : Nat) : List Char :=
  "Cancel link looked outdated (".data ++
    (if status ≠ 0 then "status ".data ++ (toString status).data else "unreachable".data) ++
    "); returned a safe search link instead.".data

/-- Appending a note to the existing notes, re-bounded to 240 characters. -/
def appendNote (notes add : List Char) : List Char :=
  safeTrimJS ((if notes.isEmpty then [] else notes ++ [' ']) ++ add) 240

/-- The response of the catch-all branch of /api/cancel-contact. -/
def ccCatchResp : CCResp :=
  ⟨200, none, none, 0, "Lookup unavailable right now — generating a cancel email draft instead.".data⟩

/-- The /api/cancel-contact handler of src/unnamed/part_000 (the variant
with link-liveness checking), with the completion call and the two probe
fetches as oracles. -/
def cancelContactLive (req : CCReq) (apiKey : Bool) (comp : CompletionOutcome)
    (pHead pGet : List Char → ProbeOutcome) : CCResp :=
  let name := jsTrim (req.subscriptionName.getD [])
  if name.isEmpty then ⟨200, none, none, 0, "subscriptionName is required".data⟩
  else if apiKey = false then ccCatchResp
  else
    match comp with
    | CompletionOutcome.netFail => ccCatchResp
    | CompletionOutcome.ok out =>
      match parseModelJSON out with
      | Except.error _ => ccCatchResp
      | Except.ok obj =>
        let email := ccExtractStr obj "email".data 200
        let confidence := clamp01 (toNumberOrNull (getField obj "confidence".data))
        let notes := ccNotesOf obj
        match ccExtractStr obj "cancelURL".data 500 with
        | some mcu =>
          let check := validateCancelableURL mcu pHead pGet
          if check.ok && (match check.finalUrl with
              | some v => !v.isEmpty
              | none => false) then
            ⟨200, email, some (safeTrimJS (check.finalUrl.getD []) 500), confidence, notes⟩
          else
            ⟨200, email, some (buildSearchURL name), min confidence (7 / 20),
              appendNote notes (deadNoteText check.status)⟩
        | none =>
          ⟨200, email, some (buildSearchURL name), min confidence (3 / 10),
            appendNote notes "No official cancel URL found; returned a safe search link.".data⟩

/-! ### draft-cancel-email endpoints -/

/-- Request body of /api/draft-cancel-email. -/
structure DraftReq where
  subscriptionName : Option (List Char)
  userName : Option (List Char)
  accountEmail : Option (List Char)
  reason : Option (List Char)

/-- HTTP response of /api/draft-cancel-email. -/
structure DraftResp where
  status : Nat
  subject : Option (List Char)
  body : Option (List Char)
  error : Option (List Char)
  raw : Option (List Char)

/-- The inline fallback subject of the src/server.mjs draft endpoint
(only reached with a non-empty name). -/
def mjsFallbackSubject (name : List Char) : List Char :=
  "Request to cancel ".data ++ name

/-- The inline fallback body of the src/server.mjs draft endpoint. -/
def mjsFallbackBody (name : List Char) : List Char :=
  "Hello ".data ++ name ++
    " Support,\n\nPlease cancel my subscription effective immediately and stop all future charges.\n\nPlease confirm cancellation in writing.\n\nThank you,\nCustomer".data

/-- Subject shaping shared by the draft endpoints: a non-empty trimmed
string subject from the model, bounded, else the fallback. -/
def draftSubjectOf (obj : Json) (fallback : List Char) : List Char :=
  match getField obj "subject".data with
  | some (Json.str s) => if (jsTrim s).isEmpty then fallback else safeTrimJS (jsTrim s) 120
  | _ => fallback

/-- Body shaping shared by the draft endpoints, bounded to 2200 characters. -/
def draftBodyOf (obj : Json) (fallback : List Char) : List Char :=
  match getField obj "body".data with
  | some (Json.str s) => if (jsTrim s).isEmpty then fallback else safeTrimJS (jsTrim s) 2200
  | _ => fallback

/-- The /api/draft-cancel-email handler of src/server.mjs: upstream and
format failures propagate through the catch as non-2xx statuses. -/
def draftCancelEmailMjs (req : DraftReq) (apiKey : Bool) (comp : CompletionOutcome) : DraftResp :=
  let name := jsTrim (req.subscriptionName.getD [])
  if name.isEmpty then ⟨400, none, none, some "subscriptionName is required".data, none⟩
  else if apiKey = false then ⟨500, none, none, some "Server error".data, none⟩
  else
    match comp with
    | CompletionOutcome.netFail => ⟨500, none, none, some "Server error".data, none⟩
    | CompletionOutcome.ok out =>
      match parseModelJSON out with
      | Except.error e => ⟨e.statusCode, none, none, some e.message, some e.raw⟩
      | Except.ok obj =>
        ⟨200, some (draftSubjectOf obj (mjsFallbackSubject name)),
          some (draftBodyOf obj (mjsFallbackBody name)), none, none⟩

/-- The fallback subject of the part_000/part_002 draft endpoint. -/
def v2FallbackSubject (name : List Char) : List Char :=
  if name.isEmpty then "Request to cancel subscription".data
  else "Request to cancel ".data ++ name

/-- The fallback body of the part_000/part_002 draft endpoint, assembled
line by line exactly as the source builds it. -/
def v2FallbackBody (name userName accountEmail reason : List Char) : List Char :=
  let sign := if userName.isEmpty then "Customer".data else userName
  let lines : List (List Char) :=
    ["Hello Support,".data, []] ++
    [if name.isEmpty then
        "Please cancel my subscription effective immediately and stop all future charges.".data
      else
        "Please cancel my ".data ++ name ++
          " subscription effective immediately and stop all future charges.".data] ++
    (if accountEmail.isEmpty then [] else [[], "Account email: ".data ++ accountEmail]) ++
    (if reason.isEmpty then [] else [[], "Reason: ".data ++ reason]) ++
    [[], "Please confirm cancellation in writing.".data, [], "Thank you,".data, sign]
  List.intercalate ['\n'] lines

/-- The /api/draft-cancel-email handler of src/unnamed/part_000 and
part_002: every branch, including the catch, answers 200 with a usable
draft. -/
def draftCancelV2 (req : DraftReq) (apiKey : Bool) (comp : CompletionOutcome) : DraftResp :=
  let name := jsTrim (req.subscriptionName.getD [])
  let userName := jsTrim (req.userName.getD [])
  let accountEmail := jsTrim (req.accountEmail.getD [])
  let reason := jsTrim (req.reason.getD [])
  let fs := v2FallbackSubject name
  let fb := v2FallbackBody name userName accountEmail reason
  if name.isEmpty then ⟨200, some fs, some fb, none, none⟩
  else if apiKey = false then ⟨200, some fs, some fb, none, none⟩
  else
    match comp with
    | CompletionOutcome.netFail => ⟨200, some fs, some fb, none, none⟩
    | CompletionOutcome.ok out =>
      match parseModelJSON out with
      | Except.error _ => ⟨200, some fs, some fb, none, none⟩
      | Except.ok obj =>
        ⟨200, some (draftSubjectOf obj fs), some (draftBodyOf obj fb), none, none⟩

/-! ### Concrete inputs used by witnesses and counterexamples -/

/-- Prose before an embedded JSON object. -/
def c1Pre : List Char := "Sure, here is the JSON you asked for: ".data

/-- A well-formed JSON object with a nested inner object. -/
def c1Obj : List Char := "\x7b\"a\":\x7b\"b\":2\x7d\x7d".data

/-- Prose after an embedded JSON object (no closing brace). -/
def c1Post : List Char := " Let me know if you need anything else.".data

/-- The parsed value of c1Obj. -/
def c1Json : Json := Json.obj [("a".data, Json.obj [("b".data, Json.num 2)])]

/-- A well-formed object followed by prose containing a stray closing brace. -/
def c1BadText : List Char := "\x7b\"a\":1\x7d \x7d".data

/-- The intended embedded object inside c1BadText. -/
def c1Intended : List Char := "\x7b\"a\":1\x7d".data

/-- A 601-character unparseable candidate: brace, 599 letters, brace. -/
def c2BadText : List Char := lbrace :: (List.replicate 599 'a' ++ [rbrace])

/-- Model output containing no braces at all. -/
def c2NoBraceText : List Char := "The weather is nice today.".data

/-- A short candidate that is not valid JSON. -/
def c2SmallBad : List Char := "\x7bnope\x7d".data

/-- A draft request naming a subscription. -/
def c3Req : DraftReq := ⟨some "Netflix".data, none, none, none⟩

/-- A parsed model object declaring a non-subscription yet naming one. -/
def c5Obj : Json :=
  Json.obj [("is_subscription".data, Json.bool false),
            ("subscription_name".data, Json.str "Netflix".data)]

/-- A parsed model object whose billing_email is null. -/
def c5WitObj : Json := Json.obj [("billing_email".data, Json.null)]

/-- A verifier oracle that rejects every token. -/
def c6VerifyReject : List Char → Option GPayload := fun _ => none

/-- A price-suggest request for Netflix with no country code. -/
def c7Req : PriceReq := ⟨some "Netflix".data, none⟩

/-- A parseable completion output for price-suggest. -/
def c7Raw : List Char := "\x7b\"confidence\":1\x7d".data

/-- The parsed value of c7Raw. -/
def c7Obj : Json := Json.obj [("confidence".data, Json.num 1)]

/-- A cancel-contact request naming subscription X. -/
def c8Req : CCReq := ⟨some "X".data, none⟩

/-- A parseable completion output carrying a cancel URL. -/
def c8Raw : List Char :=
  "\x7b\"cancelURL\":\"https://ex.com/a\",\"confidence\":1\x7d".data

/-- The parsed value of c8Raw. -/
def c8Obj : Json :=
  Json.obj [("cancelURL".data, Json.str "https://ex.com/a".data),
            ("confidence".data, Json.num 1)]

/-- A probe oracle answering 410 Gone to every request. -/
def probe410 : List Char → ProbeOutcome := fun _ => ProbeOutcome.success 410 []

/-- A probe oracle answering 200 with a final URL to every request. -/
def probe200 : List Char → ProbeOutcome :=
  fun _ => ProbeOutcome.success 200 "https://ex.com/a".data

/-! ### Shared lemmas -/

/-- firstIdx finds the head of the suffix when the character is absent
from the part before it. -/
theorem firstIdx_append_of_head (c : Char) (pre rest : List Char)
    (hpre : c ∉ pre) (hr : rest.head? = some c) :
    firstIdx c (pre ++ rest) = some pre.length := by
  induction pre with
  | nil =>
    cases rest with
    | nil => simp at hr
    | cons x xs =>
      have hx : x = c := by simpa using hr
      simp [firstIdx, hx]
  | cons x xs ih =>
    have hx : x ≠ c := fun h => hpre (by simp [h])
    have hxs : c ∉ xs := fun h => hpre (by simp [h])
    have hstep : firstIdx c ((x :: xs) ++ rest) = (firstIdx c (xs ++ rest)).map (· + 1) := by
      rw [List.cons_append, firstIdx, if_neg hx]
    rw [hstep, ih hxs]
    simp [List.length_cons]

/-- The length of an object string with distinct first and last characters
is at least two. -/
theorem two_le_length_of_head_last (obj : List Char)
    (hhead : obj.head? = some lbrace) (hlast : obj.getLast? = some rbrace) :
    2 ≤ obj.length := by
  cases obj with
  | nil => simp at hhead
  | cons x xs =>
    cases xs with
    | nil =>
      have h1 : x = lbrace := by simpa using hhead
      have h2 : x = rbrace := by simpa using hlast
      exact absurd (h1 ▸ h2) (by decide)
    | cons y ys => simp [List.length_cons]

/-- The slice between the computed brace indices of pre-object-post text
is exactly the object. -/
theorem sliceJS_embedded (pre obj post : List Char) (hobj : obj ≠ []) :
    sliceJS (pre ++ obj ++ post) pre.length (pre.length + obj.length - 1 + 1) = obj := by
  have h1 : pre.length + obj.length - 1 + 1 = pre.length + obj.length := by
    have := List.length_pos.mpr hobj
    omega
  rw [h1, sliceJS]
  rw [show pre.length + obj.length = (pre ++ obj).length from (List.length_append pre obj).symm]
  rw [List.take_left (pre ++ obj) post, List.drop_left]

/-- The first-brace index of pre-object-post text. -/
theorem firstIdx_embedded (pre obj post : List Char)
    (hpre : lbrace ∉ pre) (hhead : obj.head? = some lbrace) :
    firstIdx lbrace (pre ++ obj ++ post) = some pre.length := by
  rw [List.append_assoc]
  apply firstIdx_append_of_head _ _ _ hpre
  cases obj with
  | nil => simp at hhead
  | cons x xs => simpa using hhead

/-- The last-brace index of pre-object-post text. -/
theorem lastIdx_embedded (pre obj post : List Char)
    (hpost : rbrace ∉ post) (hhead : obj.head? = some lbrace)
    (hlast : obj.getLast? = some rbrace) :
    lastIdx rbrace (pre ++ obj ++ post) = some (pre.length + obj.length - 1) := by
  have hobj : obj ≠ [] := by
    intro h; subst h; simp at hhead
  have hrevh : obj.reverse.head? = some rbrace := by
    rw [List.head?_reverse]; exact hlast
  have hfi : firstIdx rbrace ((pre ++ obj ++ post).reverse) = some post.length := by
    have hassoc : (pre ++ obj ++ post).reverse = post.reverse ++ (obj.reverse ++ pre.reverse) := by
      simp [List.reverse_append]
    rw [hassoc]
    have := firstIdx_append_of_head rbrace post.reverse (obj.reverse ++ pre.reverse)
      (by simpa [List.mem_reverse] using hpost)
      (by
        cases hrl : obj.reverse with
        | nil => rw [hrl] at hrevh; simp at hrevh
        | cons y ys =>
          rw [hrl] at hrevh
          have : y = rbrace := by simpa using hrevh
          simp [this])
    simpa using this
  have hlen : 1 ≤ obj.length := List.length_pos.mpr hobj
  rw [lastIdx, hfi]
  show some ((pre ++ obj ++ post).length - 1 - post.length) = some (pre.length + obj.length - 1)
  congr 1
  simp only [List.length_append]
  omega

/-! ### Claim C1 -/

/-- C1 (amended): for every well-formed JSON object substring obj embedded
as pre ++ obj ++ post, where the leading prose pre contains no opening
brace and the trailing prose post contains no closing brace, the
extraction step of parseModelJSON slices exactly obj and strict parsing
recovers exactly its value — nested objects inside obj included, since
the scan uses the outermost brace positions. -/
theorem C1_extract_recovers (pre obj post : List Char) (j : Json)
    (hpre : lbrace ∉ pre) (hpost : rbrace ∉ post)
    (hhead : obj.head? = some lbrace) (hlast : obj.getLast? = some rbrace)
    (hparse : jsParse obj = some j) :
    parseModelJSON (pre ++ obj ++ post) = Except.ok j := by
  have hobj : obj ≠ [] := by intro h; subst h; simp at hhead
  have hfi := firstIdx_embedded pre obj post hpre hhead
  have hli := lastIdx_embedded pre obj post hpost hhead hlast
  have h2 := two_le_length_of_head_last obj hhead hlast
  have hnotle : ¬ (pre.length + obj.length - 1 ≤ pre.length) := by omega
  rw [parseModelJSON, hfi, hli]
  simp only [if_neg hnotle]
  rw [sliceJS_embedded pre obj post hobj, hparse]

/-- Witness for C1: a nested object surrounded by brace-free prose is
recovered exactly. -/
theorem C1_extract_recovers_witness :
    parseModelJSON (c1Pre ++ c1Obj ++ c1Post) = Except.ok c1Json :=
  C1_extract_recovers c1Pre c1Obj c1Post c1Json (by decide) (by decide) rfl rfl
    (by with_unfolding_all rfl)

/-- Counterexample to C1 as stated: with truly arbitrary surrounding prose
a stray closing brace after the object makes the slice unparseable, so
the intended object (which parses fine on its own) is not recovered. -/
theorem C1_counterexample :
    c1BadText = c1Intended ++ (' ' :: [rbrace]) ∧
    jsParse c1Intended = some (Json.obj [("a".data, Json.num 1)]) ∧
    parseModelJSON c1BadText =
      Except.error ⟨invalidJsonMsg, 502, safeTrimJS c1BadText 600⟩ :=
  ⟨rfl, by with_unfolding_all rfl, by with_unfolding_all rfl⟩

/-! ### Claim C2 -/

/-- C2 (amended): the pipeline has two distinct failure modes.  With no
opening brace, no closing brace, or the last closing brace at or before
the first opening brace, parseModelJSON fails with the no-JSON error
(status 502) built solely from the input text; when the sliced candidate
fails strict JSON parsing it fails with the distinct invalid-JSON error
(status 502) carrying a preview of the candidate bounded by 601
characters (600 plus a one-character ellipsis marker), so any candidate
longer than 601 characters is never carried in full. -/
theorem C2_failure_modes :
    (∀ text : List Char,
      (firstIdx lbrace text = none ∨ lastIdx rbrace text = none ∨
        ∃ s e, firstIdx lbrace text = some s ∧ lastIdx rbrace text = some e ∧ e ≤ s) →
      parseModelJSON text = Except.error ⟨noJsonMsg, 502, safeTrimJS text 600⟩) ∧
    (∀ text s e, firstIdx lbrace text = some s → lastIdx rbrace text = some e → s < e →
      jsParse (sliceJS text s (e + 1)) = none →
      parseModelJSON text =
        Except.error ⟨invalidJsonMsg, 502, safeTrimJS (sliceJS text s (e + 1)) 600⟩) ∧
    (∀ cand : List Char, (safeTrimJS cand 600).length ≤ 601) ∧
    (∀ cand : List Char, 601 < cand.length → safeTrimJS cand 600 ≠ cand) ∧
    noJsonMsg ≠ invalidJsonMsg := by
  refine ⟨?_, ?_, ?_, ?_, ?_⟩
  · intro text h
    rcases hf : firstIdx lbrace text with _ | s
    · rcases hl : lastIdx rbrace text with _ | e <;> rw [parseModelJSON, hf, hl]
    · rcases hl : lastIdx rbrace text with _ | e
      · rw [parseModelJSON, hf, hl]
      · have hle : e ≤ s := by
          rcases h with h | h | ⟨s2, e2, hs2, he2, hle2⟩
          · rw [h] at hf; cases hf
          · rw [h] at hl; cases hl
          · rw [hf] at hs2; rw [hl] at he2
            injection hs2 with hs2; injection he2 with he2
            omega
        rw [parseModelJSON, hf, hl]
        simp only [if_pos hle]
  · intro text s e hf hl hlt hbad
    rw [parseModelJSON, hf, hl]
    simp only [if_neg (by omega : ¬ e ≤ s), hbad]
  · intro cand
    rw [safeTrimJS]
    split
    · simp only [List.length_append, List.length_take, List.length_singleton]
      omega
    · omega
  · intro cand h heq
    rw [safeTrimJS, if_pos (by omega)] at heq
    have := congrArg List.length heq
    simp only [List.length_append, List.length_take, List.length_singleton] at this
    omega
  · decide

/-- Witness for C2: a brace-free text hits the no-JSON mode, a short
unparseable candidate hits the invalid-JSON mode. -/
theorem C2_failure_modes_witness :
    parseModelJSON c2NoBraceText =
      Except.error ⟨noJsonMsg, 502, safeTrimJS c2NoBraceText 600⟩ ∧
    parseModelJSON c2SmallBad =
      Except.error ⟨invalidJsonMsg, 502, safeTrimJS (sliceJS c2SmallBad 0 6) 600⟩ :=
  ⟨C2_failure_modes.1 c2NoBraceText (Or.inl rfl),
   C2_failure_modes.2.1 c2SmallBad 0 5 rfl rfl (by omega) rfl⟩

/-- Counterexample to C2 as stated: a 601-character unparseable candidate
produces an invalid-JSON error whose preview has 601 characters, more
than the claimed bound of 600. -/
theorem C2_counterexample :
    parseModelJSON c2BadText =
      Except.error ⟨invalidJsonMsg, 502, safeTrimJS c2BadText 600⟩ ∧
    (safeTrimJS c2BadText 600).length = 601 := by
  constructor
  · rfl
  · rfl

/-! ### Claim C3 -/

/-- C3 (amended): the part_000 cancel-contact endpoint and the
part_000/part_002 draft-cancel-email endpoint answer HTTP 200 for every
request, every API-key state, every completion outcome and every probe
behaviour; the src/server.mjs draft-cancel-email endpoint, by contrast,
propagates failures as non-2xx statuses. -/
theorem C3_always_200 (ccReq : CCReq) (dReq : DraftReq) (k1 k2 : Bool)
    (comp1 comp2 : CompletionOutcome) (pHead pGet : List Char → ProbeOutcome) :
    (cancelContactLive ccReq k1 comp1 pHead pGet).status = 200 ∧
    (draftCancelV2 dReq k2 comp2).status = 200 := by
  constructor
  · rw [cancelContactLive.eq_def]
    dsimp only
    repeat' split
    all_goals rfl
  · rw [draftCancelV2.eq_def]
    dsimp only
    repeat' split
    all_goals rfl

/-- Counterexample to C3 as stated: the src/server.mjs draft-cancel-email
handler (cited by the claim) returns 502, not a 2xx, when the completion
collaborator returns empty text. -/
theorem C3_counterexample :
    (draftCancelEmailMjs c3Req true (CompletionOutcome.ok [])).status = 502 ∧
    (draftCancelEmailMjs c3Req true (CompletionOutcome.ok [])).status ≠ 200 := by
  constructor
  · rfl
  · decide

/-! ### Claim C6 -/

/-- C6 (amended): on both identity-gated routes a request whose
Authorization header does not match the Bearer pattern is answered 401,
and on the classify route this happens with no completion call attempted;
a present token that the verifier rejects is answered 500 (the generic
catch), not 401, still with no completion call. -/
theorem C6_auth_gate (authHeader clientId : Option (List Char))
    (verify : List Char → Option GPayload) (comp : CompletionOutcome) :
    (getBearerToken (authHeader.getD []) = none →
      (classifyHandler authHeader clientId verify comp).status = 401 ∧
      (classifyHandler authHeader clientId verify comp).calledCompletion = false ∧
      (deleteMyData authHeader clientId verify).status = 401) ∧
    (∀ tok, getBearerToken (authHeader.getD []) = some tok → verify tok = none →
      (classifyHandler authHeader clientId verify comp).status = 500 ∧
      (classifyHandler authHeader clientId verify comp).calledCompletion = false) := by
  constructor
  · intro h
    rw [classifyHandler, deleteMyData, h]
    exact ⟨rfl, rfl, rfl⟩
  · intro tok htok hrej
    rcases hc : truthyStrOpt clientId with _ | _ <;>
      simp only [classifyHandler, htok, hc, hrej] <;> exact ⟨rfl, rfl⟩

/-- Witness for C6: no Authorization header at all yields 401 on both
routes with no completion call. -/
theorem C6_auth_gate_witness :
    (classifyHandler none (some "cid".data) c6VerifyReject (CompletionOutcome.ok [])).status = 401 ∧
    (classifyHandler none (some "cid".data) c6VerifyReject
      (CompletionOutcome.ok [])).calledCompletion = false ∧
    (deleteMyData none (some "cid".data) c6VerifyReject).status = 401 :=
  (C6_auth_gate none (some "cid".data) c6VerifyReject (CompletionOutcome.ok [])).1 rfl

/-- Counterexample to C6 as stated: a well-formed bearer token that fails
verification is answered 500 by the classify route, not 401. -/
theorem C6_counterexample :
    (classifyHandler (some "Bearer sometoken".data) (some "cid".data) c6VerifyReject
      (CompletionOutcome.ok [])).status = 500 ∧
    (classifyHandler (some "Bearer sometoken".data) (some "cid".data) c6VerifyReject
      (CompletionOutcome.ok [])).status ≠ 401 := by
  constructor
  · rfl
  · decide

/-! ### Claim C4 -/

/-- C4 (amended): toNumberOrNull passes numbers through unchanged (JSON
numbers are always finite), and for a string strips all non-digit/non-dot
characters and converts the remainder with Number(); the conversion
yields null only when the remainder fails to parse (e.g. two dots), while
an all-stripped string leaves the empty remainder, which Number()
converts to 0 — so toNumberOrNull of a digit-free, dot-free string such
as free is 0, not null; toNumberOrNull of the dollar-price string is
exactly 9.99; non-string non-number inputs yield null. -/
theorem C4_toNumberOrNull :
    (∀ q : ℚ, toNumberOrNull (some (Json.num q)) = some q) ∧
    (∀ s : List Char, (∀ c ∈ s, c.isDigit = false ∧ c ≠ '.') →
      toNumberOrNull (some (Json.str s)) = some 0) ∧
    toNumberOrNull (some (Json.str "$9.99/mo".data)) = some (999 / 100 : ℚ) ∧
    toNumberOrNull (some (Json.str "1.2.3".data)) = none ∧
    toNumberOrNull none = none ∧
    toNumberOrNull (some Json.null) = none ∧
    (∀ b, toNumberOrNull (some (Json.bool b)) = none) := by
  refine ⟨fun q => rfl, ?_, ?_, ?_, rfl, rfl, fun b => rfl⟩
  · intro s h
    have hstrip : stripNonDigitDot s = [] := by
      rw [stripNonDigitDot, List.filter_eq_nil_iff]
      intro a ha
      rcases h a ha with ⟨h1, h2⟩
      simp [h1, h2]
    rw [toNumberOrNull, hstrip]
    rfl
  · with_unfolding_all rfl
  · rfl

/-- Witness for C4: a letters-only string strips to the empty remainder
and converts to 0. -/
theorem C4_toNumberOrNull_witness :
    toNumberOrNull (some (Json.str "abc".data)) = some 0 :=
  C4_toNumberOrNull.2.1 "abc".data (by decide)

/-- Counterexample to C4 as stated: the claim requires the string free to
map to null, but stripping leaves the empty string and JS Number of the
empty string is 0, so the code yields 0. -/
theorem C4_counterexample :
    toNumberOrNull (some (Json.str "free".data)) = some 0 ∧
    some (0 : ℚ) ≠ (none : Option ℚ) := by
  constructor
  · rfl
  · simp

/-! ### Claim C5 -/

/-- jsNullish with the null default is null exactly on nullish input. -/
theorem jsNullish_null_iff (x : Option Json) :
    jsNullish x Json.null = Json.null ↔ nullishB x = true := by
  cases x with
  | none => simp [jsNullish, nullishB]
  | some v => cases v <;> simp [jsNullish, nullishB]

/-- jsNullish returns the default on nullish input. -/
theorem jsNullish_eq_default (x : Option Json) (d : Json) (h : nullishB x = true) :
    jsNullish x d = d := by
  cases x with
  | none => rfl
  | some v => cases v <;> first | rfl | simp [nullishB] at h

/-- jsNullish passes a non-null value through. -/
theorem jsNullish_eq_self (x : Option Json) (d : Json) (v : Json)
    (h : x = some v) (hv : v ≠ Json.null) : jsNullish x d = v := by
  subst h
  cases v <;> first | rfl | exact absurd rfl hv

/-- C5 (amended): the classify normalization passes every identification
field through unchanged whenever the model supplied a non-null value —
independently of is_subscription, so a false flag does not null the other
fields — and a field is null exactly when the model omitted it or sent
null (price and is_apple_subscription additionally when the value has the
wrong type); billing_email falls back to the verified caller email
exactly when the model value is nullish. -/
theorem C5_normalization (obj : Json) (u : Option (List Char)) :
    ((classifyNormalize obj u).subscription_name = Json.null ↔
      nullishB (getField obj "subscription_name".data) = true) ∧
    ((classifyNormalize obj u).merchant_name = Json.null ↔
      nullishB (getField obj "merchant_name".data) = true) ∧
    ((classifyNormalize obj u).currency = Json.null ↔
      nullishB (getField obj "currency".data) = true) ∧
    ((classifyNormalize obj u).billing_period = Json.null ↔
      nullishB (getField obj "billing_period".data) = true) ∧
    (∀ v, getField obj "subscription_name".data = some v → v ≠ Json.null →
      (classifyNormalize obj u).subscription_name = v) ∧
    (∀ q, getField obj "price".data = some (Json.num q) →
      (classifyNormalize obj u).price = some q) ∧
    (nullishB (getField obj "billing_email".data) = true →
      (classifyNormalize obj u).billing_email =
        (match u with | some e => Json.str e | none => Json.null)) ∧
    (∀ v, getField obj "billing_email".data = some v → v ≠ Json.null →
      (classifyNormalize obj u).billing_email = v) := by
  refine ⟨jsNullish_null_iff _, jsNullish_null_iff _, jsNullish_null_iff _,
    jsNullish_null_iff _, ?_, ?_, ?_, ?_⟩
  · intro v hv hnn
    exact jsNullish_eq_self _ _ _ hv hnn
  · intro q hq
    simp only [classifyNormalize, hq]
  · intro h
    have := jsNullish_eq_default (getField obj "billing_email".data)
      (match u with | some e => Json.str e | none => Json.null) h
    simpa [classifyNormalize] using this
  · intro v hv hnn
    exact jsNullish_eq_self _ _ _ hv hnn

/-- Witness for C5: a model object with null billing_email falls back to
the verified caller email. -/
theorem C5_normalization_witness :
    (classifyNormalize c5WitObj (some "user@example.com".data)).billing_email =
      Json.str "user@example.com".data :=
  (C5_normalization c5WitObj (some "user@example.com".data)).2.2.2.2.2.2.1 rfl

/-- Counterexample to C5 as stated: a completion response with a false
is_subscription and a non-null subscription_name keeps the name; it is
not nulled out. -/
theorem C5_counterexample :
    (classifyNormalize c5Obj none).is_subscription = false ∧
    (classifyNormalize c5Obj none).subscription_name = Json.str "Netflix".data ∧
    Json.str "Netflix".data ≠ Json.null := by
  refine ⟨rfl, rfl, ?_⟩
  intro h
  exact Json.noConfusion h

/-! ### Claim C9 -/

/-- C9 (amended): normalizeCountryCode defaults to US for absent input,
for empty input, and also for any input that trims to the empty string
(so a whitespace-only input yields US, not the empty string); any other
input is trimmed, uppercased and truncated to at most its first two
characters — a one-character input stays one character.  In particular
ca maps to CA and the empty string maps to US. -/
theorem C9_normCountryCode :
    normCountryCode none = "US".data ∧
    (∀ s, jsTrim s = [] → normCountryCode (some s) = "US".data) ∧
    (∀ s, jsTrim s ≠ [] → normCountryCode (some s) = ((jsTrim s).map Char.toUpper).take 2) ∧
    (∀ v, (normCountryCode v).length ≤ 2) ∧
    normCountryCode (some "ca".data) = "CA".data ∧
    normCountryCode (some []) = "US".data := by
  refine ⟨rfl, ?_, ?_, ?_, rfl, rfl⟩
  · intro s h
    cases s with
    | nil => rfl
    | cons a t =>
      simp only [normCountryCode, List.isEmpty_cons, Bool.false_eq_true, if_false, h]
      rfl
  · intro s h
    cases s with
    | nil => exact absurd rfl h
    | cons a t =>
      rcases hjt : jsTrim (a :: t) with _ | ⟨b, u⟩
      · exact absurd hjt h
      · simp [normCountryCode, hjt]
  · intro v
    rcases v with _ | s
    · decide
    · rw [normCountryCode]
      dsimp only
      split
      · split
        · decide
        · simp only [List.length_take, List.length_map]
          omega
      · split
        · decide
        · simp only [List.length_take, List.length_map]
          omega

/-- Witness for C9: a three-letter input is trimmed, uppercased and cut
to its first two characters. -/
theorem C9_normCountryCode_witness :
    normCountryCode (some "can".data) = "CA".data :=
  (C9_normCountryCode.2.2.1 "can".data (by decide)).trans (by decide)

/-- Counterexample to C9 as stated: a single space is neither absent nor
empty, yet the result is the default US rather than the trim-uppercase-
truncate pipeline value, which is empty. -/
theorem C9_counterexample :
    normCountryCode (some [' ']) = "US".data ∧
    ([' '] : List Char) ≠ [] ∧
    ((jsTrim [' ']).map Char.toUpper).take 2 = ([] : List Char) := by
  refine ⟨rfl, ?_, rfl⟩
  simp

/-! ### Claim C7 -/

/-- With a non-empty name and no fresh cache entry, price-suggest takes
the miss path. -/
theorem priceSuggest_miss (cache : List (List Char × CacheEntry)) (now : Nat)
    (req : PriceReq) (apiKey : Bool) (comp : CompletionOutcome)
    (hne : (jsTrim (req.subscriptionName.getD [])).isEmpty = false)
    (hc : ∀ en, cacheGet cache (priceKey (jsTrim (req.subscriptionName.getD []))
      (normCountryCode req.countryCode)) = some en → en.expiresAt ≤ now) :
    priceSuggest cache now req apiKey comp =
      priceMiss cache now (jsTrim (req.subscriptionName.getD []))
        (normCountryCode req.countryCode)
        (priceKey (jsTrim (req.subscriptionName.getD [])) (normCountryCode req.countryCode))
        apiKey comp := by
  rw [priceSuggest.eq_def]
  dsimp only
  rw [hne]
  simp only [Bool.false_eq_true, if_false]
  rcases h : cacheGet cache (priceKey (jsTrim (req.subscriptionName.getD []))
      (normCountryCode req.countryCode)) with _ | en
  · rfl
  · have hle := hc en h
    dsimp only
    rw [if_neg (Nat.not_lt.mpr hle)]

/-- With a non-empty name and a fresh cache entry, price-suggest serves
the entry with cacheHit true and no upstream call. -/
theorem priceSuggest_hit (cache : List (List Char × CacheEntry)) (now : Nat)
    (req : PriceReq) (apiKey : Bool) (comp : CompletionOutcome) (en : CacheEntry)
    (hne : (jsTrim (req.subscriptionName.getD [])).isEmpty = false)
    (hget : cacheGet cache (priceKey (jsTrim (req.subscriptionName.getD []))
      (normCountryCode req.countryCode)) = some en)
    (hfresh : now < en.expiresAt) :
    priceSuggest cache now req apiKey comp =
      ⟨⟨200, some { en.value with cacheHit := true }, none, none⟩, cache, false⟩ := by
  rw [priceSuggest.eq_def]
  dsimp only
  rw [hne]
  simp only [Bool.false_eq_true, if_false, hget]
  rw [if_pos hfresh]

/-- The miss path with an available key and a parseable completion output
answers 200, writes the cache entry with a 24h expiry, and reports the
upstream call. -/
theorem priceMiss_ok (cache : List (List Char × CacheEntry)) (now : Nat)
    (name cc key raw : List Char) (obj : Json)
    (hp : parseModelJSON raw = Except.ok obj) :
    priceMiss cache now name cc key true (CompletionOutcome.ok raw) =
      ⟨⟨200, some (pricePayloadOf obj name cc now), none, none⟩,
        (key, ⟨now + PRICE_CACHE_TTL_MS, pricePayloadOf obj name cc now⟩) :: cache, true⟩ := by
  rw [priceMiss.eq_def]
  simp only [Bool.true_eq_false, if_false, hp, cacheSet]

/-- C7: price-suggest cache idempotence.  A first call at now1 with no
fresh entry misses, calls upstream, answers 200 with cacheHit false and
writes an entry expiring exactly 24h later; a second call with the same
name and country strictly inside the TTL window answers 200 with
cacheHit true, identical field values, and no upstream call; a call at
or after the expiry misses again, calls upstream again, and answers with
cacheHit false. -/
theorem C7_cache_idempotence (cache0 : List (List Char × CacheEntry))
    (now1 now2 now3 : Nat) (req : PriceReq) (raw1 raw3 : List Char)
    (obj1 obj3 : Json) (comp2 : CompletionOutcome)
    (hname : jsTrim (req.subscriptionName.getD []) ≠ [])
    (hmiss : ∀ en, cacheGet cache0 (priceKey (jsTrim (req.subscriptionName.getD []))
      (normCountryCode req.countryCode)) = some en → en.expiresAt ≤ now1)
    (hp1 : parseModelJSON raw1 = Except.ok obj1)
    (h12 : now2 < now1 + PRICE_CACHE_TTL_MS)
    (h13 : now1 + PRICE_CACHE_TTL_MS ≤ now3)
    (hp3 : parseModelJSON raw3 = Except.ok obj3) :
    (priceSuggest cache0 now1 req true (CompletionOutcome.ok raw1)).out.status = 200 ∧
    (priceSuggest cache0 now1 req true (CompletionOutcome.ok raw1)).calledUpstream = true ∧
    (priceSuggest (priceSuggest cache0 now1 req true (CompletionOutcome.ok raw1)).cache
      now2 req true comp2).out.status = 200 ∧
    (priceSuggest (priceSuggest cache0 now1 req true (CompletionOutcome.ok raw1)).cache
      now2 req true comp2).calledUpstream = false ∧
    (priceSuggest (priceSuggest cache0 now1 req true (CompletionOutcome.ok raw1)).cache
      now3 req true (CompletionOutcome.ok raw3)).out.status = 200 ∧
    (priceSuggest (priceSuggest cache0 now1 req true (CompletionOutcome.ok raw1)).cache
      now3 req true (CompletionOutcome.ok raw3)).calledUpstream = true ∧
    ∃ p, (priceSuggest cache0 now1 req true (CompletionOutcome.ok raw1)).out.payload = some p ∧
      p.cacheHit = false ∧
      cacheGet (priceSuggest cache0 now1 req true (CompletionOutcome.ok raw1)).cache
        (priceKey (jsTrim (req.subscriptionName.getD [])) (normCountryCode req.countryCode)) =
        some ⟨now1 + PRICE_CACHE_TTL_MS, p⟩ ∧
      (priceSuggest (priceSuggest cache0 now1 req true (CompletionOutcome.ok raw1)).cache
        now2 req true comp2).out.payload = some { p with cacheHit := true } ∧
      ∃ p3, (priceSuggest (priceSuggest cache0 now1 req true (CompletionOutcome.ok raw1)).cache
        now3 req true (CompletionOutcome.ok raw3)).out.payload = some p3 ∧
        p3.cacheHit = false := by
  have hne : (jsTrim (req.subscriptionName.getD [])).isEmpty = false := by
    cases hn : jsTrim (req.subscriptionName.getD []) with
    | nil => exact absurd hn hname
    | cons a t => rfl
  have e1 : priceSuggest cache0 now1 req true (CompletionOutcome.ok raw1) =
      ⟨⟨200, some (pricePayloadOf obj1 (jsTrim (req.subscriptionName.getD []))
          (normCountryCode req.countryCode) now1), none, none⟩,
        (priceKey (jsTrim (req.subscriptionName.getD [])) (normCountryCode req.countryCode),
          ⟨now1 + PRICE_CACHE_TTL_MS, pricePayloadOf obj1 (jsTrim (req.subscriptionName.getD []))
            (normCountryCode req.countryCode) now1⟩) :: cache0, true⟩ :=
    (priceSuggest_miss cache0 now1 req true (CompletionOutcome.ok raw1) hne hmiss).trans
      (priceMiss_ok cache0 now1 _ _ _ raw1 obj1 hp1)
  rw [e1]
  dsimp only
  have hget1 : cacheGet
      ((priceKey (jsTrim (req.subscriptionName.getD [])) (normCountryCode req.countryCode),
        (⟨now1 + PRICE_CACHE_TTL_MS, pricePayloadOf obj1 (jsTrim (req.subscriptionName.getD []))
          (normCountryCode req.countryCode) now1⟩ : CacheEntry)) :: cache0)
      (priceKey (jsTrim (req.subscriptionName.getD [])) (normCountryCode req.countryCode)) =
      some ⟨now1 + PRICE_CACHE_TTL_MS, pricePayloadOf obj1 (jsTrim (req.subscriptionName.getD []))
        (normCountryCode req.countryCode) now1⟩ := by
    rw [cacheGet]
    simp
  have e2 := priceSuggest_hit _ now2 req true comp2 _ hne hget1 (by exact h12)
  have e3 : priceSuggest
      ((priceKey (jsTrim (req.subscriptionName.getD [])) (normCountryCode req.countryCode),
        (⟨now1 + PRICE_CACHE_TTL_MS, pricePayloadOf obj1 (jsTrim (req.subscriptionName.getD []))
          (normCountryCode req.countryCode) now1⟩ : CacheEntry)) :: cache0)
      now3 req true (CompletionOutcome.ok raw3) =
      ⟨⟨200, some (pricePayloadOf obj3 (jsTrim (req.subscriptionName.getD []))
          (normCountryCode req.countryCode) now3), none, none⟩,
        (priceKey (jsTrim (req.subscriptionName.getD [])) (normCountryCode req.countryCode),
          ⟨now3 + PRICE_CACHE_TTL_MS, pricePayloadOf obj3 (jsTrim (req.subscriptionName.getD []))
            (normCountryCode req.countryCode) now3⟩) ::
          ((priceKey (jsTrim (req.subscriptionName.getD [])) (normCountryCode req.countryCode),
            ⟨now1 + PRICE_CACHE_TTL_MS, pricePayloadOf obj1 (jsTrim (req.subscriptionName.getD []))
              (normCountryCode req.countryCode) now1⟩) :: cache0), true⟩ := by
    refine (priceSuggest_miss _ now3 req true (CompletionOutcome.ok raw3) hne ?_).trans
      (priceMiss_ok _ now3 _ _ _ raw3 obj3 hp3)
    intro en hen
    rw [hget1] at hen
    injection hen with hen
    rw [← hen]
    exact h13
  rw [e2, e3]
  refine ⟨rfl, rfl, rfl, rfl, rfl, rfl,
    pricePayloadOf obj1 (jsTrim (req.subscriptionName.getD []))
      (normCountryCode req.countryCode) now1, rfl, rfl, hget1, rfl,
    pricePayloadOf obj3 (jsTrim (req.subscriptionName.getD []))
      (normCountryCode req.countryCode) now3, rfl, rfl⟩

/-- Witness for C7: with an empty initial cache, a call at time 0, a
repeat at time 1 and a repeat at the exact expiry time, the observable
statuses, upstream calls and cache-hit flags are as stated. -/
theorem C7_cache_idempotence_witness :
    (priceSuggest [] 0 c7Req true (CompletionOutcome.ok c7Raw)).out.status = 200 ∧
    (priceSuggest (priceSuggest [] 0 c7Req true (CompletionOutcome.ok c7Raw)).cache
      1 c7Req true CompletionOutcome.netFail).out.status = 200 ∧
    (priceSuggest (priceSuggest [] 0 c7Req true (CompletionOutcome.ok c7Raw)).cache
      1 c7Req true CompletionOutcome.netFail).calledUpstream = false ∧
    (priceSuggest (priceSuggest [] 0 c7Req true (CompletionOutcome.ok c7Raw)).cache
      PRICE_CACHE_TTL_MS c7Req true (CompletionOutcome.ok c7Raw)).calledUpstream = true := by
  have h := C7_cache_idempotence [] 0 1 PRICE_CACHE_TTL_MS c7Req c7Raw c7Raw c7Obj c7Obj
    CompletionOutcome.netFail (by decide) (fun en hen => by rw [cacheGet] at hen; cases hen)
    (by with_unfolding_all rfl) (by decide) (by omega) (by with_unfolding_all rfl)
  exact ⟨h.1, h.2.2.1, h.2.2.2.1, h.2.2.2.2.2.1⟩

/-! ### Claim C8 -/

/-- C8: the liveness check classifies a probe as reachable exactly when
the resolved response (HEAD, or the GET retry after 403/405) has a status
in 200..399 — every network error, timeout or other status, including
410, is unreachable, and the checker is a total function that never
throws; and whenever validation fails on the model link, the
cancel-contact endpoint answers 200 with the deterministic search
fallback URL and a confidence capped at 0.35. -/
theorem C8_liveness :
    (∀ candidate pHead pGet,
      ((validateCancelableURL candidate pHead pGet).ok = true ↔
        ∃ url st u, ensureHttps candidate = some url ∧
          resolvedProbe url pHead pGet = ProbeOutcome.success st u ∧
          200 ≤ st ∧ st < 400)) ∧
    (∀ (req : CCReq) (raw : List Char) (obj : Json) (mcu : List Char)
        (pHead pGet : List Char → ProbeOutcome),
      jsTrim (req.subscriptionName.getD []) ≠ [] →
      parseModelJSON raw = Except.ok obj →
      ccExtractStr obj "cancelURL".data 500 = some mcu →
      (validateCancelableURL mcu pHead pGet).ok = false →
      (cancelContactLive req true (CompletionOutcome.ok raw) pHead pGet).status = 200 ∧
      (cancelContactLive req true (CompletionOutcome.ok raw) pHead pGet).cancelURL =
        some (buildSearchURL (jsTrim (req.subscriptionName.getD []))) ∧
      (cancelContactLive req true (CompletionOutcome.ok raw) pHead pGet).confidence ≤ 7 / 20) := by
  constructor
  · intro candidate pHead pGet
    rcases he : ensureHttps candidate with _ | url
    · simp [validateCancelableURL, he]
    · rcases hh : pHead url with _ | ⟨st, u⟩
      · simp [validateCancelableURL, he, hh, resolvedProbe]
      · by_cases hretry : st = 405 ∨ st = 403
        · rcases hg : pGet url with _ | ⟨st2, u2⟩
          · simp [validateCancelableURL, he, hh, hretry, resolvedProbe, hg]
          · simp [validateCancelableURL, he, hh, hretry, resolvedProbe, hg, verdictOf,
              decide_eq_true_eq]
        · simp [validateCancelableURL, he, hh, hretry, resolvedProbe, verdictOf,
            decide_eq_true_eq]
  · intro req raw obj mcu pHead pGet hname hp hx hok
    rw [cancelContactLive.eq_def]
    dsimp only
    rw [List.isEmpty_eq_false.mpr hname]
    simp only [Bool.false_eq_true, Bool.true_eq_false, if_false, hp, hx, hok, Bool.false_and]
    exact ⟨trivial, trivial, min_le_right _ _⟩

/-- Witness for C8: a probe answering 410 yields an unreachable verdict
and the endpoint substitutes the DuckDuckGo fallback with confidence
capped at 0.35. -/
theorem C8_liveness_witness :
    (validateCancelableURL "https://ex.com/a".data probe410 probe410).ok = false ∧
    (cancelContactLive c8Req true (CompletionOutcome.ok c8Raw) probe410 probe410).status = 200 ∧
    (cancelContactLive c8Req true (CompletionOutcome.ok c8Raw) probe410 probe410).cancelURL =
      some (buildSearchURL "X".data) ∧
    (cancelContactLive c8Req true (CompletionOutcome.ok c8Raw) probe410 probe410).confidence ≤
      7 / 20 := by
  have h := C8_liveness.2 c8Req c8Raw c8Obj "https://ex.com/a".data probe410 probe410
    (by decide) (by with_unfolding_all rfl) (by with_unfolding_all rfl) rfl
  exact ⟨rfl, h.1, h.2.1, h.2.2⟩

/-! ### Claim C10 -/

/-- C10: for every cancel-contact request (liveness variant) with a
non-empty subscription name whose model output parses, the returned
cancelURL is non-null — either the bounded final URL of a successful
probe or the deterministic DuckDuckGo search URL. -/
theorem C10_cancelURL_nonnull (req : CCReq) (pHead pGet : List Char → ProbeOutcome)
    (raw : List Char) (obj : Json)
    (hname : jsTrim (req.subscriptionName.getD []) ≠ [])
    (hp : parseModelJSON raw = Except.ok obj) :
    ∃ u, (cancelContactLive req true (CompletionOutcome.ok raw) pHead pGet).cancelURL = some u ∧
      (u = buildSearchURL (jsTrim (req.subscriptionName.getD [])) ∨
        ∃ mcu v, ccExtractStr obj "cancelURL".data 500 = some mcu ∧
          (validateCancelableURL mcu pHead pGet).finalUrl = some v ∧
          u = safeTrimJS v 500) := by
  rw [cancelContactLive.eq_def]
  dsimp only
  rw [List.isEmpty_eq_false.mpr hname]
  simp only [Bool.false_eq_true, Bool.true_eq_false, if_false, hp]
  split
  · rename_i mcu hmcu
    split
    · rename_i hcond
      rcases hfu : (validateCancelableURL mcu pHead pGet).finalUrl with _ | v
      · rw [hfu] at hcond
        simp at hcond
      · exact ⟨safeTrimJS v 500, rfl, Or.inr ⟨mcu, v, hmcu, hfu, rfl⟩⟩
    · exact ⟨_, rfl, Or.inl rfl⟩
  · exact ⟨_, rfl, Or.inl rfl⟩

/-- Witness for C10: with a 200-answering probe the endpoint returns the
probe's final URL; the cancelURL is non-null. -/
theorem C10_cancelURL_nonnull_witness :
    ∃ u, (cancelContactLive c8Req true (CompletionOutcome.ok c8Raw)
        probe200 probe200).cancelURL = some u ∧
      (u = buildSearchURL (jsTrim (c8Req.subscriptionName.getD [])) ∨
        ∃ mcu v, ccExtractStr c8Obj "cancelURL".data 500 = some mcu ∧
          (validateCancelableURL mcu probe200 probe200).finalUrl = some v ∧
          u = safeTrimJS v 500) :=
  C10_cancelURL_nonnull c8Req probe200 probe200 c8Raw c8Obj (by decide)
    (by with_unfolding_all rfl)

end CC

